import Mathlib

/-!
Shallow embedding of the farmgame core (crop growth, farm grid, player
progression, offline reconciliation) from `config.py`, `models/crop.py`,
`models/farm.py`, `models/player.py` and `systems/save_system.py`.

Python floats (timestamps, growth fractions) are modelled as `ℚ`;
Python ints as `ℤ`.  Python dicts are modelled as association lists with
Python-dict semantics: lookup returns the first (unique) matching key,
assignment updates an existing key in place and otherwise appends at the
end (preserving Python's insertion-order iteration).  The serialization
boundary's `"x,y"` string keys are abstracted as the coordinate pair
itself (the encoding is injective and handled at the JSON layer).
Python exceptions (`KeyError`, `ValueError`) are modelled with `Except`.
-/

/-- Python-dict lookup: first entry with the given key (keys are unique
in an actual dict). -/
def dictGet {α β : Type} [DecidableEq α] : List (α × β) → α → Option β
  | [], _ => none
  | (k, v) :: rest, key => if key = k then some v else dictGet rest key

/-- Python-dict assignment `d[key] = val`: updates an existing key in
place, otherwise appends the new entry at the end. -/
def dictSet {α β : Type} [DecidableEq α] : List (α × β) → α → β → List (α × β)
  | [], key, val => [(key, val)]
  | (k, v) :: rest, key, val =>
    if key = k then (k, val) :: rest else (k, v) :: dictSet rest key val

/-- Keys of an association list, in order. -/
def dictKeys {α β : Type} (l : List (α × β)) : List α := l.map Prod.fst

/-- Python `int()` on a rational: truncation toward zero. -/
def py_int (q : ℚ) : ℤ := if q < 0 then ⌈q⌉ else ⌊q⌋

/-! ## config.py -/

/-- config.py: `STARTING_COINS = 100`. -/
def STARTING_COINS : ℤ := 100

/-- config.py: `STARTING_UNLOCKED_CROPS = ['RADISH', 'CARROT']`. -/
def STARTING_UNLOCKED_CROPS : List String := ["RADISH", "CARROT"]

/-- config.py: `XP_PER_LEVEL = 100`. -/
def XP_PER_LEVEL : ℤ := 100

/-- config.py: `OFFLINE_REWARD_MULTIPLIER = 0.7`. -/
def OFFLINE_REWARD_MULTIPLIER : ℚ := 7 / 10

/-- config.py: `MAX_OFFLINE_TIME = 86400`. -/
def MAX_OFFLINE_TIME : ℚ := 86400

/-- config.py: `MIN_OFFLINE_TIME_TO_PROCESS = 10`. -/
def MIN_OFFLINE_TIME_TO_PROCESS : ℚ := 10

/-- config.py: dataclass `CropConfig`. -/
structure CropConfig where
  name : String
  emoji : String
  growth_time : ℤ
  seed_cost : ℤ
  sell_price : ℤ
  unlock_level : ℤ
  deriving DecidableEq

/-- config.py: the `CROPS` table (a Python dict, modelled as an
association list in its insertion order). -/
def CROPS : List (String × CropConfig) :=
  [ ("RADISH", ⟨"Radish", "🔴", 30, 10, 15, 1⟩),
    ("CARROT", ⟨"Carrot", "🥕", 60, 20, 35, 1⟩),
    ("WHEAT", ⟨"Wheat", "🌾", 120, 30, 60, 2⟩),
    ("TOMATO", ⟨"Tomato", "🍅", 180, 50, 100, 3⟩),
    ("CORN", ⟨"Corn", "🌽", 300, 80, 180, 5⟩),
    ("PUMPKIN", ⟨"Pumpkin", "🎃", 600, 150, 400, 7⟩) ]

/-! ## models/crop.py -/

/-- crop.py: enum `GrowthStage`. -/
inductive GrowthStage where
  | EMPTY
  | PLANTED
  | SPROUTING
  | GROWING
  | FLOWERING
  | READY
  deriving DecidableEq

/-- crop.py: class `Crop` (stores the type key, the looked-up config and
the planting timestamp). -/
structure Crop where
  crop_type : String
  config : CropConfig
  planted_at : ℚ
  deriving DecidableEq

/-- crop.py: the body of `Crop.__init__` once the planting time has been
resolved: the unknown-type check, then the negative-timestamp check,
each raising `ValueError` (modelled as `Except.error`). -/
def Crop.make (crop_type : String) (plant_time : ℚ) : Except String Crop :=
  match dictGet CROPS crop_type with
  | none => .error ("Unknown crop type: " ++ crop_type)
  | some cfg =>
    if plant_time < 0 then .error "Invalid planted_at timestamp"
    else .ok ⟨crop_type, cfg, plant_time⟩

/-- crop.py: `Crop.__init__(crop_type, planted_at=None)`; a missing
`planted_at` defaults to `time.time()`, passed in as `now`. -/
def Crop.init (crop_type : String) (planted_at : Option ℚ) (now : ℚ) :
    Except String Crop :=
  Crop.make crop_type (planted_at.getD now)

/-- crop.py: property `growth_progress` (reads `time.time()`, passed in
as `now`). -/
def Crop.growth_progress (c : Crop) (now : ℚ) : ℚ :=
  max 0 ((now - c.planted_at) / (c.config.growth_time : ℚ))

/-- crop.py: property ` is_ready`. -/
def Crop.is_ready (c : Crop) (now : ℚ) : Bool :=
  decide (1 ≤ c.growth_progress now)

/-- crop.py: property `current_stage` (note the duplicated FLOWERING
branch in the source). -/
def Crop.current_stage (c : Crop) (now : ℚ) : GrowthStage :=
  if c.is_ready now then .READY
  else
    let progress := c.growth_progress now
    if progress < 1 / 5 then .PLANTED
    else if progress < 2 / 5 then .SPROUTING
    else if progress < 3 / 5 then .GROWING
    else if progress < 4 / 5 then .FLOWERING
    else .FLOWERING

/-- crop.py: the dictionary produced by `Crop.to_dict`. -/
structure CropDict where
  crop_type : String
  planted_at : ℚ
  deriving DecidableEq

/-- crop.py: `Crop.to_dict`. -/
def Crop.to_dict (c : Crop) : CropDict := ⟨c.crop_type, c.planted_at⟩

/-- crop.py: `Crop.from_dict` (re-runs the constructor's validation). -/
def Crop.from_dict (d : CropDict) : Except String Crop :=
  Crop.make d.crop_type d.planted_at

/-! ## models/farm.py -/

/-- farm.py: class `Farm`.  `plots` is a Python dict keyed by the
coordinate pair, modelled as an association list in insertion order. -/
structure Farm where
  width : ℤ
  height : ℤ
  plots : List ((ℤ × ℤ) × Option Crop)
  deriving DecidableEq

/-- The key order produced by `for x in range(width): for y in
range(height)` (x-major grid scan order; empty for non-positive
dimensions, as Python's `range`). -/
def gridCoords (width height : ℤ) : List (ℤ × ℤ) :=
  (List.range width.toNat).flatMap
    (fun (x : ℕ) => (List.range height.toNat).map
      (fun (y : ℕ) => ((x : ℤ), (y : ℤ))))

/-- farm.py: `Farm.__init__` — all in-range plots initialized empty. -/
def Farm.init (width height : ℤ) : Farm :=
  ⟨width, height, (gridCoords width height).map (fun k => (k, none))⟩

/-- A farm whose plots cover the grid in canonical scan order with the
given per-cell contents (the shape every farm built by `Farm.__init__`
or `Farm.from_dict` has). -/
def mkFarmOf (width height : ℤ) (contents : ℤ × ℤ → Option Crop) : Farm :=
  ⟨width, height, (gridCoords width height).map (fun k => (k, contents k))⟩

/-- farm.py: `Farm._is_valid_position`. -/
def Farm.is_valid_position (farm : Farm) (x y : ℤ) : Bool :=
  decide (0 ≤ x ∧ x < farm.width ∧ 0 ≤ y ∧ y < farm.height)

/-- farm.py: `Farm.plant_crop` (reads `time.time()` through the `Crop`
constructor, passed in as `now`; a missing plots entry at a valid
position would be a Python `KeyError`, modelled as `Except.error`). -/
def Farm.plant_crop (farm : Farm) (x y : ℤ) (crop_type : String)
    (now : ℚ) : Except String (Bool × Farm) :=
  if ¬ farm.is_valid_position x y then .ok (false, farm)
  else
    match dictGet farm.plots (x, y) with
    | none => .error "KeyError"
    | some (some _) => .ok (false, farm)
    | some none =>
      (Crop.init crop_type none now).map
        (fun c => (true, { farm with plots := dictSet farm.plots (x, y) (some c) }))

/-- farm.py: one step of `Farm.expand`'s plot-filling loop:
`if (x, y) not in self.plots: self.plots[(x, y)] = None`. -/
def expandStep (plots : List ((ℤ × ℤ) × Option Crop)) (k : ℤ × ℤ) :
    List ((ℤ × ℤ) × Option Crop) :=
  if dictGet plots k = none then dictSet plots k none else plots

/-- farm.py: the plot-filling loop of `Farm.expand`, over the new grid's
coordinates in scan order. -/
def expandFill : List (ℤ × ℤ) → List ((ℤ × ℤ) × Option Crop) →
    List ((ℤ × ℤ) × Option Crop)
  | [], plots => plots
  | k :: rest, plots => expandFill rest (expandStep plots k)

/-- farm.py: `Farm.expand`. -/
def Farm.expand (farm : Farm) (new_width new_height : ℤ) : Bool × Farm :=
  if new_width < farm.width ∨ new_height < farm.height then (false, farm)
  else
    (true,
     ⟨new_width, new_height,
      expandFill (gridCoords new_width new_height) farm.plots⟩)

/-- farm.py: the dictionary produced by `Farm.to_dict` (coordinate keys
are `"x,y"` strings in the JSON; the pair stands for that key here). -/
structure FarmDict where
  width : ℤ
  height : ℤ
  plots : List ((ℤ × ℤ) × Option CropDict)
  deriving DecidableEq

/-- farm.py: `Farm.to_dict`. -/
def Farm.to_dict (farm : Farm) : FarmDict :=
  ⟨farm.width, farm.height,
   farm.plots.map (fun kv => (kv.1, kv.2.map Crop.to_dict))⟩

/-- farm.py: the body of `Farm.from_dict`'s restore loop for one stored
plot entry: empty entries are skipped, non-empty ones are parsed and
assigned. -/
def restorePlot (acc : List ((ℤ × ℤ) × Option Crop))
    (kv : (ℤ × ℤ) × Option CropDict) :
    Except String (List ((ℤ × ℤ) × Option Crop)) :=
  match kv.2 with
  | none => pure acc
  | some cd => do
    let c ← Crop.from_dict cd
    pure (dictSet acc kv.1 (some c))

/-- farm.py: `Farm.from_dict`: builds a fresh farm of the stored
dimensions, then restores each non-empty plot entry in dict order. -/
def Farm.from_dict (d : FarmDict) : Except String Farm := do
  let plots ← d.plots.foldlM restorePlot (Farm.init d.width d.height).plots
  pure ⟨d.width, d.height, plots⟩

/-! ## models/player.py -/

/-- player.py: class `Player`.  The Python set of unlocked crop keys is
modelled as a `Finset`. -/
structure Player where
  coins : ℤ
  experience : ℤ
  level : ℤ
  total_crops_planted : ℤ
  total_crops_harvested : ℤ
  unlocked_crops : Finset String
  deriving DecidableEq

/-- player.py: `Player.__init__`; the argument `unlocked_crops` defaults
to `None`, and the body keeps `unlocked_crops or
set(STARTING_UNLOCKED_CROPS)` — any falsy value (absent or the empty
set) is replaced by the starting set. -/
def Player.init (coins experience level total_crops_planted
    total_crops_harvested : ℤ) (unlocked_crops : Option (Finset String)) :
    Player :=
  ⟨coins, experience, level, total_crops_planted, total_crops_harvested,
   match unlocked_crops with
   | none => STARTING_UNLOCKED_CROPS.toFinset
   | some s => if s = ∅ then STARTING_UNLOCKED_CROPS.toFinset else s⟩

/-- player.py: `Player.add_coins`. -/
def Player.add_coins (p : Player) (amount : ℤ) : Player :=
  { p with coins := p.coins + amount }

/-- player.py: `Player.spend_coins`; returns the success flag and the
(possibly) updated player. -/
def Player.spend_coins (p : Player) (amount : ℤ) : Bool × Player :=
  if amount ≤ p.coins then (true, { p with coins := p.coins - amount })
  else (false, p)

/-- player.py: the `while self.experience >= self.xp_for_next_level`
loop of `add_experience`, with the threshold `level * XP_PER_LEVEL`
recomputed on every test.  Structural fuel makes the recursion total;
`add_experience` supplies fuel that is proved sufficient
(`levelLoop_fuel_irrelevant`). -/
def levelLoop : ℕ → ℤ → ℤ → ℤ → ℤ × ℤ × ℤ
  | 0, experience, level, gained => (experience, level, gained)
  | fuel + 1, experience, level, gained =>
    if level * XP_PER_LEVEL ≤ experience then
      levelLoop fuel (experience - level * XP_PER_LEVEL) (level + 1)
        (gained + 1)
    else (experience, level, gained)

/-- player.py: `Player.add_experience`; returns the number of levels
gained and the updated player. -/
def Player.add_experience (p : Player) (amount : ℤ) : ℤ × Player :=
  let exp := p.experience + amount
  let r := levelLoop (exp.toNat + 1) exp p.level 0
  (r.2.2, { p with experience := r.1, level := r.2.1 })

/-- player.py: the dictionary produced by `Player.to_dict`. -/
structure PlayerDict where
  coins : ℤ
  experience : ℤ
  level : ℤ
  total_crops_planted : ℤ
  total_crops_harvested : ℤ
  unlocked_crops : List String
  deriving DecidableEq

/-- player.py: `Player.to_dict`; `list(self.unlocked_crops)` enumerates
the set in an unspecified order, modelled as the sorted enumeration. -/
def Player.to_dict (p : Player) : PlayerDict :=
  ⟨p.coins, p.experience, p.level, p.total_crops_planted,
   p.total_crops_harvested, p.unlocked_crops.sort (· ≤ ·)⟩

/-- player.py: `Player.from_dict` (`set(data['unlocked_crops'])` fed to
the constructor). -/
def Player.from_dict (d : PlayerDict) : Player :=
  Player.init d.coins d.experience d.level d.total_crops_planted
    d.total_crops_harvested (some d.unlocked_crops.toFinset)

/-! ## systems/save_system.py -/

/-- save_system.py: the offline summary dictionary returned by
`SaveSystem._process_offline_time`. -/
structure OfflineSummary where
  offline_time : ℚ
  auto_harvested : List (String × ℤ)
  total_coins : ℤ
  deriving DecidableEq

/-- save_system.py: the `for (x, y), crop in list(farm.plots.items())`
loop of `_process_offline_time`: iterates over a snapshot of the plots,
auto-harvesting each crop whose absolute elapsed time reaches its
growth time (`int(sell_price * OFFLINE_REWARD_MULTIPLIER)` coins,
counter incremented, plot cleared, entry appended). -/
def offlineLoop (now : ℚ) :
    List ((ℤ × ℤ) × Option Crop) → Farm → Player → List (String × ℤ) → ℤ →
    Farm × Player × List (String × ℤ) × ℤ
  | [], farm, player, auto_harvested, total_coins =>
    (farm, player, auto_harvested, total_coins)
  | (k, crop?) :: rest, farm, player, auto_harvested, total_coins =>
    match crop? with
    | none => offlineLoop now rest farm player auto_harvested total_coins
    | some crop =>
      if (crop.config.growth_time : ℚ) ≤ now - crop.planted_at then
        let coins_earned :=
          py_int ((crop.config.sell_price : ℚ) * OFFLINE_REWARD_MULTIPLIER)
        offlineLoop now rest
          { farm with plots := dictSet farm.plots k none }
          { player with
              coins := player.coins + coins_earned,
              total_crops_harvested := player.total_crops_harvested + 1 }
          (auto_harvested ++ [(crop.config.name, coins_earned)])
          (total_coins + coins_earned)
      else offlineLoop now rest farm player auto_harvested total_coins

/-- save_system.py: `SaveSystem._process_offline_time` (reads
`time.time()`, passed in as `now`; returns the final farm and player —
the Python code mutates them in place — and the summary). -/
def SaveSystem.process_offline_time (farm : Farm) (player : Player)
    (last_save now : ℚ) : Farm × Player × OfflineSummary :=
  let offline_time := min (now - last_save) MAX_OFFLINE_TIME
  if offline_time < MIN_OFFLINE_TIME_TO_PROCESS then
    (farm, player, ⟨0, [], 0⟩)
  else
    let r := offlineLoop now farm.plots farm player [] 0
    (r.1, r.2.1, ⟨offline_time, r.2.2.1, r.2.2.2⟩)

/-! ## Specification-side derived definitions -/

/-- The spec's stage bucketing as a function of the growth fraction:
`[0,0.2) → PLANTED`, `[0.2,0.4) → SPROUTING`, `[0.4,0.6) → GROWING`,
`[0.6,1.0) → FLOWERING` (the 0.6–0.8 and 0.8–1.0 sub-ranges collapse),
`≥ 1.0 → READY`. -/
def stageOfFraction (f : ℚ) : GrowthStage :=
  if 1 ≤ f then .READY
  else if f < 1 / 5 then .PLANTED
  else if f < 2 / 5 then .SPROUTING
  else if f < 3 / 5 then .GROWING
  else .FLOWERING

/-- The offline-reconciliation harvest test: the crop's absolute elapsed
time since planting meets or exceeds its configured growth time. -/
def cropReadyNow (now : ℚ) (c : Crop) : Bool :=
  decide ((c.config.growth_time : ℚ) ≤ now - c.planted_at)

/-- The discounted offline payout `int(sell_price *
OFFLINE_REWARD_MULTIPLIER)` for one crop. -/
def offlinePayout (c : Crop) : ℤ :=
  py_int ((c.config.sell_price : ℚ) * OFFLINE_REWARD_MULTIPLIER)

/-- The contents of one plot after offline reconciliation: a crop that
is ready now is cleared, everything else is untouched. -/
def offlineCell (now : ℚ) : Option Crop → Option Crop
  | some c => if cropReadyNow now c then none else some c
  | none => none

/-- The ordered auto-harvest report produced by scanning a plot list. -/
def harvestList (now : ℚ) (l : List ((ℤ × ℤ) × Option Crop)) :
    List (String × ℤ) :=
  l.filterMap (fun kv =>
    match kv.2 with
    | some c =>
      if cropReadyNow now c then some (c.config.name, offlinePayout c)
      else none
    | none => none)

/-- Total coins credited by an auto-harvest report. -/
def harvestTotal (now : ℚ) (l : List ((ℤ × ℤ) × Option Crop)) : ℤ :=
  ((harvestList now l).map Prod.snd).sum

/-- Number of crops auto-harvested from a plot list. -/
def harvestCount (now : ℚ) (l : List ((ℤ × ℤ) × Option Crop)) : ℤ :=
  (harvestList now l).length

/-- The pure effect of `Farm.from_dict`'s restore loop once every
stored crop entry is known to parse: assign each occupied cell of the
coordinate list into the accumulator. -/
def restoreSpec (contents : ℤ × ℤ → Option Crop) :
    List (ℤ × ℤ) → List ((ℤ × ℤ) × Option Crop) →
    List ((ℤ × ℤ) × Option Crop)
  | [], acc => acc
  | k :: rest, acc =>
    restoreSpec contents rest
      (match contents k with
       | none => acc
       | some c => dictSet acc k (some c))

/-! ## Dictionary and grid lemmas -/

theorem dictGet_dictSet_self {α β : Type} [DecidableEq α]
    (l : List (α × β)) (k : α) (v : β) :
    dictGet (dictSet l k v) k = some v := by
  induction l with
  | nil => simp [dictSet, dictGet]
  | cons hd tl ih =>
    obtain ⟨k1, v1⟩ := hd
    by_cases h : k = k1
    · subst h
      simp [dictSet, dictGet]
    · simp [dictSet, dictGet, h, ih]

theorem dictGet_dictSet_ne {α β : Type} [DecidableEq α]
    (l : List (α × β)) (k k' : α) (v : β) (h : k' ≠ k) :
    dictGet (dictSet l k v) k' = dictGet l k' := by
  induction l with
  | nil => simp [dictSet, dictGet, h]
  | cons hd tl ih =>
    obtain ⟨k1, v1⟩ := hd
    by_cases h1 : k = k1
    · subst h1
      simp [dictSet, dictGet, h]
    · by_cases h2 : k' = k1 <;> simp [dictSet, dictGet, h1, h2, ih]

theorem dictGet_mem {α β : Type} [DecidableEq α]
    {l : List (α × β)} {k : α} {v : β} (h : dictGet l k = some v) :
    (k, v) ∈ l := by
  induction l with
  | nil => simp [dictGet] at h
  | cons hd tl ih =>
    obtain ⟨k1, v1⟩ := hd
    by_cases h1 : k = k1
    · subst h1
      have hv : v1 = v := by simpa [dictGet] using h
      subst hv
      exact List.mem_cons_self _ _
    · simp only [dictGet, if_neg h1] at h
      exact List.mem_cons_of_mem _ (ih h)

theorem dictGet_map_fn {α β : Type} [DecidableEq α]
    (l : List α) (f : α → β) (k : α) :
    dictGet (l.map (fun a => (a, f a))) k =
      if k ∈ l then some (f k) else none := by
  induction l with
  | nil => simp [dictGet]
  | cons hd tl ih =>
    by_cases h : k = hd
    · subst h
      simp [dictGet]
    · simp [dictGet, h, ih]

theorem dictKeys_map_fn {α β : Type} (l : List α) (f : α → β) :
    dictKeys (l.map (fun a => (a, f a))) = l := by
  simp [dictKeys, List.map_map, Function.comp_def]

theorem dictSet_append_head {α β : Type} [DecidableEq α]
    (pre : List (α × β)) (k : α) (v v' : β) (rest : List (α × β))
    (hk : k ∉ dictKeys pre) :
    dictSet (pre ++ (k, v) :: rest) k v' = pre ++ (k, v') :: rest := by
  induction pre with
  | nil => simp [dictSet]
  | cons hd tl ih =>
    obtain ⟨k1, v1⟩ := hd
    simp only [dictKeys, List.map_cons, List.mem_cons] at hk
    push_neg at hk
    obtain ⟨hne, hk2⟩ := hk
    simp only [List.cons_append, dictSet, if_neg hne]
    exact congrArg (List.cons (k1, v1)) (ih hk2)

theorem mem_gridCoords_mk {w h x y : ℤ} :
    (x, y) ∈ gridCoords w h ↔ 0 ≤ x ∧ x < w ∧ 0 ≤ y ∧ y < h := by
  simp only [gridCoords, List.mem_flatMap, List.mem_map, List.mem_range,
    Prod.mk.injEq]
  constructor
  · rintro ⟨a, ha, b, hb, rfl, rfl⟩
    omega
  · rintro ⟨h1, h2, h3, h4⟩
    exact ⟨x.toNat, by omega, y.toNat, by omega, by omega, by omega⟩

theorem mem_gridCoords {w h : ℤ} {p : ℤ × ℤ} :
    p ∈ gridCoords w h ↔ 0 ≤ p.1 ∧ p.1 < w ∧ 0 ≤ p.2 ∧ p.2 < h := by
  obtain ⟨x, y⟩ := p
  exact mem_gridCoords_mk

theorem gridCoords_nodup (w h : ℤ) : (gridCoords w h).Nodup := by
  unfold gridCoords
  refine List.nodup_flatMap.mpr ⟨?_, ?_⟩
  · intro a _
    have hinj : Function.Injective
        (fun (y : ℕ) => (((a : ℕ) : ℤ), (y : ℤ))) := by
      intro p q hpq
      simpa using congrArg Prod.snd hpq
    exact (List.nodup_range h.toNat).map hinj
  · refine (List.nodup_range w.toNat).imp ?_
    intro a b hne
    intro p hpa hpb
    simp only [List.mem_map, List.mem_range] at hpa hpb
    obtain ⟨ya, _, rfl⟩ := hpa
    obtain ⟨yb, _, hyb⟩ := hpb
    have hfst : (b : ℤ) = (a : ℤ) := congrArg Prod.fst hyb
    exact hne (by exact_mod_cast hfst.symm)

theorem mkFarmOf_get (w h : ℤ) (contents : ℤ × ℤ → Option Crop)
    (k : ℤ × ℤ) :
    dictGet (mkFarmOf w h contents).plots k =
      if 0 ≤ k.1 ∧ k.1 < w ∧ 0 ≤ k.2 ∧ k.2 < h then some (contents k)
      else none := by
  show dictGet ((gridCoords w h).map (fun a => (a, contents a))) k = _
  rw [dictGet_map_fn]
  by_cases hm : k ∈ gridCoords w h
  · rw [if_pos hm, if_pos (mem_gridCoords.mp hm)]
  · rw [if_neg hm, if_neg (fun hc => hm (mem_gridCoords.mpr hc))]

/-! ## Claim theorems -/

/-- Claim C5: for every crop and current time, the growth fraction is
`max(0, (now - plantedAt) / growthTimeSeconds)` with no upper clamp,
readiness holds exactly when the fraction reaches 1.0, and the visual
stage is the spec's bucket function of the fraction (with the 0.6–0.8
and 0.8–1.0 sub-ranges collapsed to FLOWERING). -/
theorem crop_growth_model_spec (c : Crop) (now : ℚ) :
    c.growth_progress now =
      max 0 ((now - c.planted_at) / (c.config.growth_time : ℚ))
    ∧ (c.is_ready now = true ↔ 1 ≤ c.growth_progress now)
    ∧ c.current_stage now = stageOfFraction (c.growth_progress now) := by
  refine ⟨rfl, by simp [Crop.is_ready], ?_⟩
  unfold Crop.current_stage stageOfFraction
  by_cases h1 : 1 ≤ c.growth_progress now
  · simp [Crop.is_ready, h1]
  · simp only [Crop.is_ready, decide_eq_true_eq, if_neg h1]
    split_ifs <;> rfl

/-- Claim C6: `spend_coins` succeeds and decrements coins by the amount
exactly when `coins >= amount`; otherwise it fails and leaves the
player (every field) unchanged. -/
theorem spend_coins_spec (p : Player) (amount : ℤ) :
    ((p.spend_coins amount).1 = true ↔ amount ≤ p.coins)
    ∧ (amount ≤ p.coins →
        (p.spend_coins amount).2 = { p with coins := p.coins - amount })
    ∧ (p.coins < amount → (p.spend_coins amount).2 = p) := by
  unfold Player.spend_coins
  refine ⟨?_, ?_, ?_⟩
  · by_cases h : amount ≤ p.coins <;> simp [h]
  · intro h
    rw [if_pos h]
  · intro h2
    rw [if_neg (not_le.mpr h2)]

theorem spend_coins_spec_witness :
    ((Player.init 5 0 1 0 0 none).spend_coins 7).2 =
      Player.init 5 0 1 0 0 none :=
  (spend_coins_spec (Player.init 5 0 1 0 0 none) 7).2.2 (by decide)

/-- Claim C9: constructing a crop with an unknown kind or a negative
timestamp fails with the corresponding descriptive `ValueError`; for a
known kind and a nonnegative timestamp it succeeds and stores exactly
that kind and timestamp (no default substituted). -/
theorem crop_construction_validation (crop_type : String) (t : ℚ) :
    (dictGet CROPS crop_type = none →
      Crop.make crop_type t = .error ("Unknown crop type: " ++ crop_type))
    ∧ (∀ cfg, dictGet CROPS crop_type = some cfg → t < 0 →
        Crop.make crop_type t = .error "Invalid planted_at timestamp")
    ∧ (∀ cfg, dictGet CROPS crop_type = some cfg → 0 ≤ t →
        Crop.make crop_type t = .ok ⟨crop_type, cfg, t⟩) := by
  unfold Crop.make
  refine ⟨fun h => by rw [h], fun cfg h ht => ?_, fun cfg h ht => ?_⟩
  · rw [h]
    simp [ht]
  · rw [h]
    simp [not_lt.mpr ht]

theorem crop_construction_validation_witness :
    Crop.make "RADISH" 5 =
      .ok ⟨"RADISH", ⟨"Radish", "🔴", 30, 10, 15, 1⟩, 5⟩ :=
  (crop_construction_validation "RADISH" 5).2.2
    ⟨"Radish", "🔴", 30, 10, 15, 1⟩ rfl (by norm_num)

/-- Claim C4: when the capped offline gap is below the processing
threshold — in particular whenever `now < lastSaveTimestamp` — offline
reconciliation returns the farm and player unchanged together with the
zero summary (offline seconds reported as 0, empty harvest list, zero
coins). -/
theorem offline_short_gap_noop (farm : Farm) (player : Player)
    (last_save now : ℚ) :
    (min (now - last_save) MAX_OFFLINE_TIME < MIN_OFFLINE_TIME_TO_PROCESS →
      SaveSystem.process_offline_time farm player last_save now =
        (farm, player, ⟨0, [], 0⟩))
    ∧ (now < last_save →
      SaveSystem.process_offline_time farm player last_save now =
        (farm, player, ⟨0, [], 0⟩)) := by
  have hmain :
      min (now - last_save) MAX_OFFLINE_TIME < MIN_OFFLINE_TIME_TO_PROCESS →
      SaveSystem.process_offline_time farm player last_save now =
        (farm, player, ⟨0, [], 0⟩) := by
    intro h
    unfold SaveSystem.process_offline_time
    rw [if_pos h]
  refine ⟨hmain, fun h => hmain ?_⟩
  have h1 : now - last_save < 0 := by linarith
  have h2 : min (now - last_save) MAX_OFFLINE_TIME ≤ now - last_save :=
    min_le_left _ _
  have h3 : (0 : ℚ) < MIN_OFFLINE_TIME_TO_PROCESS := by
    norm_num [MIN_OFFLINE_TIME_TO_PROCESS]
  linarith

theorem offline_short_gap_noop_witness :
    SaveSystem.process_offline_time (Farm.init 4 4)
      (Player.init 100 0 1 0 0 none) 100 50 =
      (Farm.init 4 4, Player.init 100 0 1 0 0 none, ⟨0, [], 0⟩) :=
  (offline_short_gap_noop (Farm.init 4 4) (Player.init 100 0 1 0 0 none)
    100 50).2 (by norm_num)

/-- Claim C2 counterexample: expanding a 4×4 farm to the same 4×4
dimensions returns success (True), although the claim asserts failure
whenever newWidth ≤ width and newHeight ≤ height. -/
theorem expand_equal_dims_counterexample :
    ((Farm.init 4 4).expand 4 4).1 = true ∧ (Farm.init 4 4).width = 4 ∧
      (Farm.init 4 4).height = 4 := by
  refine ⟨?_, rfl, rfl⟩
  rfl

/-- Claim C10: a saved player whose `unlocked_crops` list is empty
deserializes to the starting unlocked set (the constructor treats any
falsy `unlocked_crops` as absent); every constructed or deserialized
player therefore has a non-empty unlocked set, and the serialization
round trip fails for any player value whose unlocked set is empty. -/
theorem unlocked_crops_falsy_default :
    (∀ d : PlayerDict, d.unlocked_crops = [] →
      Player.from_dict d =
        ⟨d.coins, d.experience, d.level, d.total_crops_planted,
         d.total_crops_harvested, STARTING_UNLOCKED_CROPS.toFinset⟩)
    ∧ (∀ coins experience level tcp tch unlocked,
        (Player.init coins experience level tcp tch
          unlocked).unlocked_crops ≠ ∅)
    ∧ (∀ d : PlayerDict, (Player.from_dict d).unlocked_crops ≠ ∅)
    ∧ (∀ p : Player, p.unlocked_crops = ∅ →
        Player.from_dict (Player.to_dict p) ≠ p) := by
  have hstart : STARTING_UNLOCKED_CROPS.toFinset ≠ ∅ := by decide
  have hinit : ∀ coins experience level tcp tch unlocked,
      (Player.init coins experience level tcp tch
        unlocked).unlocked_crops ≠ ∅ := by
    intro coins experience level tcp tch unlocked
    unfold Player.init
    match unlocked with
    | none => exact hstart
    | some s =>
      by_cases hs : s = ∅
      · simp only [hs, if_pos rfl]
        exact hstart
      · simp only [if_neg hs]
        exact hs
  refine ⟨?_, hinit, fun d => hinit _ _ _ _ _ _, ?_⟩
  · intro d hd
    unfold Player.from_dict Player.init
    simp [hd]
  · intro p hp hne
    have h1 : (Player.from_dict (Player.to_dict p)).unlocked_crops = ∅ := by
      rw [hne, hp]
    exact hinit _ _ _ _ _ _ h1

theorem unlocked_crops_falsy_default_witness :
    Player.from_dict ⟨1, 2, 3, 4, 5, []⟩ =
      ⟨1, 2, 3, 4, 5, STARTING_UNLOCKED_CROPS.toFinset⟩ :=
  unlocked_crops_falsy_default.1 ⟨1, 2, 3, 4, 5, []⟩ rfl

theorem levelLoop_zero (exp lvl g : ℤ) : levelLoop 0 exp lvl g = (exp, lvl, g) :=
  rfl

theorem levelLoop_succ (fuel : ℕ) (exp lvl g : ℤ) :
    levelLoop (fuel + 1) exp lvl g =
      if lvl * XP_PER_LEVEL ≤ exp then
        levelLoop fuel (exp - lvl * XP_PER_LEVEL) (lvl + 1) (g + 1)
      else (exp, lvl, g) := rfl

theorem levelLoop_invariant (fuel : ℕ) :
    ∀ exp lvl g : ℤ, 1 ≤ lvl → exp < (fuel : ℤ) * XP_PER_LEVEL →
      (levelLoop fuel exp lvl g).1 <
          (levelLoop fuel exp lvl g).2.1 * XP_PER_LEVEL
        ∧ 1 ≤ (levelLoop fuel exp lvl g).2.1
        ∧ (levelLoop fuel exp lvl g).2.2 - g =
            (levelLoop fuel exp lvl g).2.1 - lvl := by
  induction fuel with
  | zero =>
    intro exp lvl g h1 h2
    rw [levelLoop_zero]
    simp only [XP_PER_LEVEL] at h2 ⊢
    push_cast at h2
    exact ⟨by omega, h1, by ring⟩
  | succ n ih =>
    intro exp lvl g h1 h2
    rw [levelLoop_succ]
    by_cases hguard : lvl * XP_PER_LEVEL ≤ exp
    · rw [if_pos hguard]
      have hb : exp - lvl * XP_PER_LEVEL < (n : ℤ) * XP_PER_LEVEL := by
        simp only [XP_PER_LEVEL] at h2 hguard ⊢
        push_cast at h2 ⊢
        omega
      obtain ⟨a, b, c⟩ :=
        ih (exp - lvl * XP_PER_LEVEL) (lvl + 1) (g + 1) (by omega) hb
      exact ⟨a, b, by omega⟩
    · rw [if_neg hguard]
      show exp < lvl * XP_PER_LEVEL ∧ 1 ≤ lvl ∧ g - g = lvl - lvl
      exact ⟨not_le.mp hguard, h1, by ring⟩

theorem levelLoop_fuel_succ (fuel : ℕ) :
    ∀ exp lvl g : ℤ, 1 ≤ lvl → exp < (fuel : ℤ) * XP_PER_LEVEL →
      levelLoop (fuel + 1) exp lvl g = levelLoop fuel exp lvl g := by
  induction fuel with
  | zero =>
    intro exp lvl g h1 h2
    have hguard : ¬ lvl * XP_PER_LEVEL ≤ exp := by
      simp only [XP_PER_LEVEL] at h2 ⊢
      push_cast at h2
      omega
    rw [levelLoop_succ, if_neg hguard, levelLoop_zero]
  | succ n ih =>
    intro exp lvl g h1 h2
    by_cases hguard : lvl * XP_PER_LEVEL ≤ exp
    · rw [levelLoop_succ (n + 1) exp lvl g, levelLoop_succ n exp lvl g,
        if_pos hguard, if_pos hguard]
      refine ih _ _ _ (by omega) ?_
      simp only [XP_PER_LEVEL] at h2 hguard ⊢
      push_cast at h2 ⊢
      omega
    · rw [levelLoop_succ (n + 1) exp lvl g, levelLoop_succ n exp lvl g,
        if_neg hguard, if_neg hguard]

theorem levelLoop_fuel_irrelevant (fuel d : ℕ) (exp lvl g : ℤ)
    (h1 : 1 ≤ lvl) (h2 : exp < (fuel : ℤ) * XP_PER_LEVEL) :
    levelLoop (fuel + d) exp lvl g = levelLoop fuel exp lvl g := by
  induction d with
  | zero => rfl
  | succ n ih =>
    have h2' : exp < ((fuel + n : ℕ) : ℤ) * XP_PER_LEVEL := by
      simp only [XP_PER_LEVEL] at h2 ⊢
      push_cast at h2 ⊢
      omega
    have hstep := levelLoop_fuel_succ (fuel + n) exp lvl g h1 h2'
    calc levelLoop (fuel + (n + 1)) exp lvl g
        = levelLoop ((fuel + n) + 1) exp lvl g := by rw [Nat.add_succ]
      _ = levelLoop (fuel + n) exp lvl g := hstep
      _ = levelLoop fuel exp lvl g := ih

/-- Claim C3: starting from a normalized player state (level ≥ 1,
experience below the current threshold), `add_experience` terminates
(its result is independent of any sufficient fuel), re-establishes
`experience < level * XP_PER_LEVEL`, and returns exactly the number of
thresholds crossed, the threshold `level * XP_PER_LEVEL` being
recomputed after each level increment; in particular
`add_experience(600)` on a fresh level-1 player returns 3 and ends at
level 4 with experience 0. -/
theorem add_experience_spec (p : Player) (amount : ℤ)
    (hlvl : 1 ≤ p.level)
    (hinv : p.experience < p.level * XP_PER_LEVEL) (hamt : 0 ≤ amount) :
    (p.add_experience amount).2.experience <
        (p.add_experience amount).2.level * XP_PER_LEVEL
    ∧ 1 ≤ (p.add_experience amount).2.level
    ∧ (p.add_experience amount).1 =
        (p.add_experience amount).2.level - p.level
    ∧ (p.add_experience amount).2.coins = p.coins
    ∧ (p.add_experience amount).2.total_crops_planted =
        p.total_crops_planted
    ∧ (p.add_experience amount).2.total_crops_harvested =
        p.total_crops_harvested
    ∧ (p.add_experience amount).2.unlocked_crops = p.unlocked_crops
    ∧ (∀ fuel : ℕ,
        p.experience + amount < (fuel : ℤ) * XP_PER_LEVEL →
        levelLoop fuel (p.experience + amount) p.level 0 =
          levelLoop ((p.experience + amount).toNat + 1)
            (p.experience + amount) p.level 0)
    ∧ (Player.init STARTING_COINS 0 1 0 0 none).add_experience 600 =
        (3, ⟨STARTING_COINS, 0, 4, 0, 0, STARTING_UNLOCKED_CROPS.toFinset⟩) := by
  have hxp : p.experience + amount <
      (((p.experience + amount).toNat + 1 : ℕ) : ℤ) * XP_PER_LEVEL := by
    simp only [XP_PER_LEVEL]
    push_cast
    omega
  obtain ⟨a, b, c⟩ := levelLoop_invariant ((p.experience + amount).toNat + 1)
    (p.experience + amount) p.level 0 hlvl hxp
  have hret : (p.add_experience amount).1 =
      (p.add_experience amount).2.level - p.level := by
    show (levelLoop ((p.experience + amount).toNat + 1)
        (p.experience + amount) p.level 0).2.2 =
      (levelLoop ((p.experience + amount).toNat + 1)
        (p.experience + amount) p.level 0).2.1 - p.level
    omega
  refine ⟨a, b, hret, rfl, rfl, rfl, rfl, ?_, by decide⟩
  intro fuel hf
  have e1 := levelLoop_fuel_irrelevant fuel (max fuel ((p.experience + amount).toNat + 1) - fuel)
    (p.experience + amount) p.level 0 hlvl hf
  have e2 := levelLoop_fuel_irrelevant ((p.experience + amount).toNat + 1)
    (max fuel ((p.experience + amount).toNat + 1) - ((p.experience + amount).toNat + 1))
    (p.experience + amount) p.level 0 hlvl hxp
  have hm1 : fuel + (max fuel ((p.experience + amount).toNat + 1) - fuel) =
      max fuel ((p.experience + amount).toNat + 1) := by omega
  have hm2 : (p.experience + amount).toNat + 1 +
      (max fuel ((p.experience + amount).toNat + 1) -
        ((p.experience + amount).toNat + 1)) =
      max fuel ((p.experience + amount).toNat + 1) := by omega
  rw [hm1] at e1
  rw [hm2] at e2
  rw [← e1, e2]

theorem add_experience_spec_witness :
    (Player.init STARTING_COINS 0 1 0 0 none).add_experience 600 =
      (3, ⟨STARTING_COINS, 0, 4, 0, 0, STARTING_UNLOCKED_CROPS.toFinset⟩) :=
  (add_experience_spec (Player.init STARTING_COINS 0 1 0 0 none) 600
    (by decide) (by decide) (by decide)).2.2.2.2.2.2.2.2

theorem mkFarmOf_width (w h : ℤ) (contents : ℤ × ℤ → Option Crop) :
    (mkFarmOf w h contents).width = w := rfl

theorem mkFarmOf_height (w h : ℤ) (contents : ℤ × ℤ → Option Crop) :
    (mkFarmOf w h contents).height = h := rfl

theorem expandStep_get (plots : List ((ℤ × ℤ) × Option Crop))
    (a k : ℤ × ℤ) :
    dictGet (expandStep plots a) k =
      if k = a then (dictGet plots a).or (some none) else dictGet plots k := by
  unfold expandStep
  by_cases ha : dictGet plots a = none
  · rw [if_pos ha]
    by_cases hka : k = a
    · subst hka
      rw [dictGet_dictSet_self, ha, if_pos rfl]
      rfl
    · rw [dictGet_dictSet_ne _ _ _ _ hka, if_neg hka]
  · rw [if_neg ha]
    by_cases hka : k = a
    · subst hka
      rw [if_pos rfl]
      rcases hv : dictGet plots k with _ | v
      · exact absurd hv ha
      · rfl
    · rw [if_neg hka]

theorem expandFill_get (coords : List (ℤ × ℤ)) :
    ∀ (plots : List ((ℤ × ℤ) × Option Crop)) (k : ℤ × ℤ),
      dictGet (expandFill coords plots) k =
        (dictGet plots k).or (if k ∈ coords then some none else none) := by
  induction coords with
  | nil =>
    intro plots k
    simp [expandFill]
  | cons a rest ih =>
    intro plots k
    show dictGet (expandFill rest (expandStep plots a)) k = _
    rw [ih, expandStep_get]
    by_cases hka : k = a
    · subst hka
      rw [if_pos rfl]
      simp only [List.mem_cons, true_or, if_true]
      rcases dictGet plots k with _ | v <;> rfl
    · rw [if_neg hka]
      simp only [List.mem_cons, hka, false_or]

/-- Claim C2 amended: `expand` fails (returning False, grid unchanged)
exactly when a dimension would shrink (`newWidth < width` or
`newHeight < height`); expanding to the *same* dimensions returns True
(not the failure the claim asserts) while changing nothing, and any
non-shrinking expand succeeds, preserves every existing cell, adds
empty entries for exactly the newly in-range coordinates, and updates
the stored dimensions. -/
theorem expand_spec_amended (w h nw nh : ℤ)
    (contents : ℤ × ℤ → Option Crop) :
    ((nw < w ∨ nh < h) →
      (mkFarmOf w h contents).expand nw nh = (false, mkFarmOf w h contents))
    ∧ (w ≤ nw → h ≤ nh →
        ((mkFarmOf w h contents).expand nw nh).1 = true
        ∧ ((mkFarmOf w h contents).expand nw nh).2.width = nw
        ∧ ((mkFarmOf w h contents).expand nw nh).2.height = nh
        ∧ ∀ k : ℤ × ℤ,
            dictGet ((mkFarmOf w h contents).expand nw nh).2.plots k =
              if 0 ≤ k.1 ∧ k.1 < w ∧ 0 ≤ k.2 ∧ k.2 < h then
                some (contents k)
              else if 0 ≤ k.1 ∧ k.1 < nw ∧ 0 ≤ k.2 ∧ k.2 < nh then
                some none
              else none) := by
  constructor
  · intro hlt
    simp only [Farm.expand, mkFarmOf_width, mkFarmOf_height]
    rw [if_pos hlt]
  · intro h1 h2
    have hnot : ¬ (nw < w ∨ nh < h) := by omega
    refine ⟨?_, ?_, ?_, ?_⟩
    · simp only [Farm.expand, mkFarmOf_width, mkFarmOf_height, if_neg hnot]
    · simp only [Farm.expand, mkFarmOf_width, mkFarmOf_height, if_neg hnot]
    · simp only [Farm.expand, mkFarmOf_width, mkFarmOf_height, if_neg hnot]
    · intro k
      simp only [Farm.expand, mkFarmOf_width, mkFarmOf_height, if_neg hnot]
      show dictGet
        (expandFill (gridCoords nw nh) (mkFarmOf w h contents).plots) k = _
      rw [expandFill_get, mkFarmOf_get]
      by_cases hold : 0 ≤ k.1 ∧ k.1 < w ∧ 0 ≤ k.2 ∧ k.2 < h
      · rw [if_pos hold, if_pos hold]
        rfl
      · rw [if_neg hold, if_neg hold]
        by_cases hnew : 0 ≤ k.1 ∧ k.1 < nw ∧ 0 ≤ k.2 ∧ k.2 < nh
        · rw [if_pos (mem_gridCoords.mpr hnew), if_pos hnew]
          rfl
        · rw [if_neg (fun hc => hnew (mem_gridCoords.mp hc)), if_neg hnew]
          rfl

theorem expand_spec_amended_witness :
    (mkFarmOf 2 2 (fun _ => none)).expand 1 3 =
      (false, mkFarmOf 2 2 (fun _ => none)) :=
  (expand_spec_amended 2 2 1 3 (fun _ => none)).1 (Or.inl (by norm_num))

theorem mkFarmOf_get_mk (w h x y : ℤ) (contents : ℤ × ℤ → Option Crop) :
    dictGet (mkFarmOf w h contents).plots (x, y) =
      if 0 ≤ x ∧ x < w ∧ 0 ≤ y ∧ y < h then some (contents (x, y))
      else none :=
  mkFarmOf_get w h contents (x, y)

/-- Claim C8: `plant_crop` returns False and changes nothing when the
coordinates are out of bounds or the cell is occupied; otherwise it
stores a fresh crop of the requested (known) kind with
`plantedAt = now` at that cell, returns True, and leaves every other
cell unchanged. -/
theorem plant_crop_spec (w h x y : ℤ) (contents : ℤ × ℤ → Option Crop)
    (crop_type : String) (now : ℚ) (cfg : CropConfig)
    (hknown : dictGet CROPS crop_type = some cfg) (hnow : 0 ≤ now) :
    (¬ (0 ≤ x ∧ x < w ∧ 0 ≤ y ∧ y < h) →
      (mkFarmOf w h contents).plant_crop x y crop_type now =
        .ok (false, mkFarmOf w h contents))
    ∧ (∀ c, (0 ≤ x ∧ x < w ∧ 0 ≤ y ∧ y < h) → contents (x, y) = some c →
        (mkFarmOf w h contents).plant_crop x y crop_type now =
          .ok (false, mkFarmOf w h contents))
    ∧ ((0 ≤ x ∧ x < w ∧ 0 ≤ y ∧ y < h) → contents (x, y) = none →
        (mkFarmOf w h contents).plant_crop x y crop_type now =
          .ok (true, ⟨w, h, dictSet (mkFarmOf w h contents).plots (x, y)
            (some ⟨crop_type, cfg, now⟩)⟩)
        ∧ dictGet (dictSet (mkFarmOf w h contents).plots (x, y)
            (some ⟨crop_type, cfg, now⟩)) (x, y) =
            some (some ⟨crop_type, cfg, now⟩)
        ∧ ∀ k : ℤ × ℤ, k ≠ (x, y) →
            dictGet (dictSet (mkFarmOf w h contents).plots (x, y)
              (some ⟨crop_type, cfg, now⟩)) k =
              dictGet (mkFarmOf w h contents).plots k) := by
  refine ⟨?_, ?_, ?_⟩
  · intro hinval
    have hval : (mkFarmOf w h contents).is_valid_position x y = false := by
      simp only [Farm.is_valid_position, mkFarmOf_width, mkFarmOf_height,
        decide_eq_false_iff_not]
      exact hinval
    simp [Farm.plant_crop, hval]
  · intro c hin hc
    have hval : (mkFarmOf w h contents).is_valid_position x y = true := by
      simp only [Farm.is_valid_position, mkFarmOf_width, mkFarmOf_height,
        decide_eq_true_eq]
      exact hin
    have hget : dictGet (mkFarmOf w h contents).plots (x, y) =
        some (some c) := by
      rw [mkFarmOf_get_mk, if_pos hin, hc]
    simp [Farm.plant_crop, hval, hget]
  · intro hin hc
    have hval : (mkFarmOf w h contents).is_valid_position x y = true := by
      simp only [Farm.is_valid_position, mkFarmOf_width, mkFarmOf_height,
        decide_eq_true_eq]
      exact hin
    have hget : dictGet (mkFarmOf w h contents).plots (x, y) =
        some none := by
      rw [mkFarmOf_get_mk, if_pos hin, hc]
    have hmake : Crop.init crop_type none now =
        .ok ⟨crop_type, cfg, now⟩ := by
      show Crop.make crop_type now = _
      unfold Crop.make
      rw [hknown]
      simp [not_lt.mpr hnow]
    refine ⟨?_, dictGet_dictSet_self _ _ _,
      fun k hk => dictGet_dictSet_ne _ _ _ _ hk⟩
    simp [Farm.plant_crop, hval, hget, hmake, Except.map, mkFarmOf_width,
      mkFarmOf_height]

theorem plant_crop_spec_witness :
    (mkFarmOf 2 2 (fun _ => none)).plant_crop 0 0 "RADISH" 5 =
      .ok (true, ⟨2, 2, dictSet (mkFarmOf 2 2 (fun _ => none)).plots (0, 0)
        (some ⟨"RADISH", ⟨"Radish", "🔴", 30, 10, 15, 1⟩, 5⟩)⟩) :=
  ((plant_crop_spec 2 2 0 0 (fun _ => none) "RADISH" 5
      ⟨"Radish", "🔴", 30, 10, 15, 1⟩ rfl (by norm_num)).2.2
    (by norm_num) rfl).1

theorem crop_round_trip {c : Crop}
    (h1 : dictGet CROPS c.crop_type = some c.config)
    (h2 : 0 ≤ c.planted_at) :
    Crop.from_dict (Crop.to_dict c) = .ok c := by
  show Crop.make c.crop_type c.planted_at = .ok c
  unfold Crop.make
  rw [h1]
  simp [not_lt.mpr h2]

theorem player_round_trip {p : Player}
    (hsup : STARTING_UNLOCKED_CROPS.toFinset ⊆ p.unlocked_crops) :
    Player.from_dict (Player.to_dict p) = p := by
  have hsort : (p.unlocked_crops.sort (· ≤ ·)).toFinset =
      p.unlocked_crops := Finset.sort_toFinset _ _
  have hne : p.unlocked_crops ≠ ∅ := by
    intro h0
    rw [h0] at hsup
    have hmem : ("RADISH" : String) ∈ (∅ : Finset String) :=
      hsup (by decide)
    simp at hmem
  unfold Player.from_dict Player.to_dict Player.init
  simp [hsort, hne]

theorem restorePlot_some (acc : List ((ℤ × ℤ) × Option Crop)) (k : ℤ × ℤ)
    (cd : CropDict) :
    restorePlot acc (k, some cd) =
      Crop.from_dict cd >>= fun c => pure (dictSet acc k (some c)) := rfl

theorem restore_foldlM_eq (contents : ℤ × ℤ → Option Crop)
    (hvalid : ∀ k c, contents k = some c →
      dictGet CROPS c.crop_type = some c.config ∧ 0 ≤ c.planted_at)
    (l : List (ℤ × ℤ)) :
    ∀ acc : List ((ℤ × ℤ) × Option Crop),
      List.foldlM restorePlot acc
          (l.map (fun k => (k, (contents k).map Crop.to_dict))) =
        Except.ok (restoreSpec contents l acc) := by
  induction l with
  | nil => intro acc; rfl
  | cons a rest ih =>
    intro acc
    rw [List.map_cons, List.foldlM_cons]
    rcases hca : contents a with _ | c
    · simp only [restoreSpec, hca]
      show List.foldlM restorePlot acc
        (rest.map (fun k => (k, (contents k).map Crop.to_dict))) =
        Except.ok (restoreSpec contents rest acc)
      exact ih acc
    · obtain ⟨hcfg, hpa⟩ := hvalid a c hca
      have hrt : Crop.from_dict (Crop.to_dict c) = Except.ok c :=
        crop_round_trip hcfg hpa
      simp only [restoreSpec, hca, Option.map_some']
      rw [restorePlot_some, hrt]
      show List.foldlM restorePlot (dictSet acc a (some c))
        (rest.map (fun k => (k, (contents k).map Crop.to_dict))) =
        Except.ok (restoreSpec contents rest (dictSet acc a (some c)))
      exact ih _

theorem restoreSpec_get (contents : ℤ × ℤ → Option Crop)
    (l : List (ℤ × ℤ)) :
    ∀ (acc : List ((ℤ × ℤ) × Option Crop)) (k : ℤ × ℤ),
      dictGet (restoreSpec contents l acc) k =
        if k ∈ l ∧ (contents k).isSome then some (contents k)
        else dictGet acc k := by
  induction l with
  | nil =>
    intro acc k
    simp [restoreSpec]
  | cons a rest ih =>
    intro acc k
    simp only [restoreSpec]
    rcases hca : contents a with _ | c
    · rw [ih]
      by_cases hk : k = a
      · subst hk
        simp [List.mem_cons, hca]
      · simp [List.mem_cons, hk]
    · rw [ih]
      by_cases hk : k = a
      · subst hk
        by_cases hr : k ∈ rest
        · simp [List.mem_cons, hca, hr]
        · simp [List.mem_cons, hca, hr, dictGet_dictSet_self]
      · rw [dictGet_dictSet_ne _ _ _ _ hk]
        simp [List.mem_cons, hk]

theorem farm_init_get (w h : ℤ) (k : ℤ × ℤ) :
    dictGet (Farm.init w h).plots k =
      if k ∈ gridCoords w h then some none else none := by
  show dictGet ((gridCoords w h).map (fun a => (a, none))) k = _
  rw [dictGet_map_fn]
  by_cases hm : k ∈ gridCoords w h
  · rw [if_pos hm, if_pos hm]
  · rw [if_neg hm, if_neg hm]

theorem farm_to_dict_mk (w h : ℤ) (contents : ℤ × ℤ → Option Crop) :
    Farm.to_dict (mkFarmOf w h contents) =
      ⟨w, h, (gridCoords w h).map
        (fun k => (k, (contents k).map Crop.to_dict))⟩ := by
  unfold Farm.to_dict mkFarmOf
  rw [List.map_map]
  rfl

/-- Claim C7: serializing then deserializing a crop, a player whose
unlocked set contains the starting unlocked crops, or a farm grid whose
crops satisfy the data-model invariants, yields a value equal
field-for-field to the original (same crop kind and timestamp, same
player fields and unlocked set, same dimensions and per-cell grid
contents). -/
theorem serialization_round_trip (c : Crop) (p : Player) (w h : ℤ)
    (contents : ℤ × ℤ → Option Crop)
    (hc1 : dictGet CROPS c.crop_type = some c.config)
    (hc2 : 0 ≤ c.planted_at)
    (hp : STARTING_UNLOCKED_CROPS.toFinset ⊆ p.unlocked_crops)
    (hf : ∀ k cr, contents k = some cr →
      dictGet CROPS cr.crop_type = some cr.config ∧ 0 ≤ cr.planted_at) :
    Crop.from_dict (Crop.to_dict c) = .ok c
    ∧ Player.from_dict (Player.to_dict p) = p
    ∧ ∃ farm2 : Farm,
        Farm.from_dict (Farm.to_dict (mkFarmOf w h contents)) = .ok farm2
        ∧ farm2.width = w ∧ farm2.height = h
        ∧ ∀ k : ℤ × ℤ, dictGet farm2.plots k =
            dictGet (mkFarmOf w h contents).plots k := by
  refine ⟨crop_round_trip hc1 hc2, player_round_trip hp, ?_⟩
  refine ⟨⟨w, h, restoreSpec contents (gridCoords w h)
    (Farm.init w h).plots⟩, ?_, rfl, rfl, ?_⟩
  · rw [farm_to_dict_mk]
    have hfold := restore_foldlM_eq contents hf (gridCoords w h)
      ((Farm.init w h).plots)
    show List.foldlM restorePlot (Farm.init w h).plots
        ((gridCoords w h).map
          (fun k => (k, (contents k).map Crop.to_dict))) >>=
      (fun plots => pure (⟨w, h, plots⟩ : Farm)) = _
    rw [hfold]
    rfl
  · intro k
    rw [restoreSpec_get, farm_init_get, mkFarmOf_get]
    by_cases hm : k ∈ gridCoords w h
    · have hrange := mem_gridCoords.mp hm
      rw [if_pos hrange]
      rcases hck : contents k with _ | cr
      · rw [if_neg (by simp [hck]), if_pos hm]
      · rw [if_pos (by simp [hck, hm])]
    · have hrange := fun hc => hm (mem_gridCoords.mpr hc)
      rw [if_neg hrange, if_neg (by simp [hm]), if_neg hm]

theorem serialization_round_trip_witness :
    Crop.from_dict
        (Crop.to_dict ⟨"RADISH", ⟨"Radish", "🔴", 30, 10, 15, 1⟩, 5⟩) =
      .ok ⟨"RADISH", ⟨"Radish", "🔴", 30, 10, 15, 1⟩, 5⟩ :=
  (serialization_round_trip ⟨"RADISH", ⟨"Radish", "🔴", 30, 10, 15, 1⟩, 5⟩
    (Player.init 100 0 1 0 0 none) 1 1 (fun _ => none) rfl (by norm_num)
    (by decide) (by intro k cr hcr; cases hcr)).1

theorem harvestList_cons_none (now : ℚ) (k : ℤ × ℤ)
    (rest : List ((ℤ × ℤ) × Option Crop)) :
    harvestList now ((k, none) :: rest) = harvestList now rest := rfl

theorem harvestList_cons_ready (now : ℚ) (k : ℤ × ℤ) (crop : Crop)
    (rest : List ((ℤ × ℤ) × Option Crop))
    (h : (crop.config.growth_time : ℚ) ≤ now - crop.planted_at) :
    harvestList now ((k, some crop) :: rest) =
      (crop.config.name, offlinePayout crop) :: harvestList now rest := by
  simp [harvestList, cropReadyNow, h]

theorem harvestList_cons_not_ready (now : ℚ) (k : ℤ × ℤ) (crop : Crop)
    (rest : List ((ℤ × ℤ) × Option Crop))
    (h : ¬ (crop.config.growth_time : ℚ) ≤ now - crop.planted_at) :
    harvestList now ((k, some crop) :: rest) = harvestList now rest := by
  simp [harvestList, cropReadyNow, h]

theorem harvestTotal_cons_none (now : ℚ) (k : ℤ × ℤ)
    (rest : List ((ℤ × ℤ) × Option Crop)) :
    harvestTotal now ((k, none) :: rest) = harvestTotal now rest := by
  unfold harvestTotal
  rw [harvestList_cons_none]

theorem harvestTotal_cons_ready (now : ℚ) (k : ℤ × ℤ) (crop : Crop)
    (rest : List ((ℤ × ℤ) × Option Crop))
    (h : (crop.config.growth_time : ℚ) ≤ now - crop.planted_at) :
    harvestTotal now ((k, some crop) :: rest) =
      offlinePayout crop + harvestTotal now rest := by
  unfold harvestTotal
  rw [harvestList_cons_ready now k crop rest h]
  simp

theorem harvestTotal_cons_not_ready (now : ℚ) (k : ℤ × ℤ) (crop : Crop)
    (rest : List ((ℤ × ℤ) × Option Crop))
    (h : ¬ (crop.config.growth_time : ℚ) ≤ now - crop.planted_at) :
    harvestTotal now ((k, some crop) :: rest) = harvestTotal now rest := by
  unfold harvestTotal
  rw [harvestList_cons_not_ready now k crop rest h]

theorem harvestCount_cons_none (now : ℚ) (k : ℤ × ℤ)
    (rest : List ((ℤ × ℤ) × Option Crop)) :
    harvestCount now ((k, none) :: rest) = harvestCount now rest := by
  unfold harvestCount
  rw [harvestList_cons_none]

theorem harvestCount_cons_ready (now : ℚ) (k : ℤ × ℤ) (crop : Crop)
    (rest : List ((ℤ × ℤ) × Option Crop))
    (h : (crop.config.growth_time : ℚ) ≤ now - crop.planted_at) :
    harvestCount now ((k, some crop) :: rest) =
      harvestCount now rest + 1 := by
  unfold harvestCount
  rw [harvestList_cons_ready now k crop rest h, List.length_cons]
  push_cast
  ring

theorem harvestCount_cons_not_ready (now : ℚ) (k : ℤ × ℤ) (crop : Crop)
    (rest : List ((ℤ × ℤ) × Option Crop))
    (h : ¬ (crop.config.growth_time : ℚ) ≤ now - crop.planted_at) :
    harvestCount now ((k, some crop) :: rest) = harvestCount now rest := by
  unfold harvestCount
  rw [harvestList_cons_not_ready now k crop rest h]

theorem offlineLoop_components (now : ℚ)
    (l : List ((ℤ × ℤ) × Option Crop)) :
    ∀ (farm : Farm) (player : Player) (ah : List (String × ℤ)) (tc : ℤ),
      (offlineLoop now l farm player ah tc).2.1.coins =
        player.coins + harvestTotal now l
      ∧ (offlineLoop now l farm player ah tc).2.1.experience =
          player.experience
      ∧ (offlineLoop now l farm player ah tc).2.1.level = player.level
      ∧ (offlineLoop now l farm player ah tc).2.1.total_crops_planted =
          player.total_crops_planted
      ∧ (offlineLoop now l farm player ah tc).2.1.total_crops_harvested =
          player.total_crops_harvested + harvestCount now l
      ∧ (offlineLoop now l farm player ah tc).2.1.unlocked_crops =
          player.unlocked_crops
      ∧ (offlineLoop now l farm player ah tc).2.2.1 =
          ah ++ harvestList now l
      ∧ (offlineLoop now l farm player ah tc).2.2.2 =
          tc + harvestTotal now l := by
  induction l with
  | nil =>
    intro farm player ah tc
    simp [offlineLoop, harvestTotal, harvestCount, harvestList]
  | cons entry rest ih =>
    intro farm player ah tc
    obtain ⟨k, crop?⟩ := entry
    rcases crop? with _ | crop
    · simp only [offlineLoop]
      rw [harvestTotal_cons_none now k rest, harvestCount_cons_none now k rest,
        harvestList_cons_none now k rest]
      exact ih farm player ah tc
    · by_cases hready :
        (crop.config.growth_time : ℚ) ≤ now - crop.planted_at
      · simp only [offlineLoop, if_pos hready]
        rw [harvestTotal_cons_ready now k crop rest hready,
          harvestCount_cons_ready now k crop rest hready,
          harvestList_cons_ready now k crop rest hready]
        obtain ⟨h1, h2, h3, h4, h5, h6, h7, h8⟩ := ih
          { farm with plots := dictSet farm.plots k none }
          { player with
              coins := player.coins +
                py_int ((crop.config.sell_price : ℚ) *
                  OFFLINE_REWARD_MULTIPLIER),
              total_crops_harvested := player.total_crops_harvested + 1 }
          (ah ++ [(crop.config.name,
            py_int ((crop.config.sell_price : ℚ) *
              OFFLINE_REWARD_MULTIPLIER))])
          (tc + py_int ((crop.config.sell_price : ℚ) *
            OFFLINE_REWARD_MULTIPLIER))
        refine ⟨h1.trans ?_, h2, h3, h4, h5.trans ?_, h6, h7.trans ?_,
          h8.trans ?_⟩
        · show player.coins + offlinePayout crop + harvestTotal now rest =
            player.coins + (offlinePayout crop + harvestTotal now rest)
          ring
        · show player.total_crops_harvested + 1 + harvestCount now rest =
            player.total_crops_harvested + (harvestCount now rest + 1)
          ring
        · show ah ++ [(crop.config.name, offlinePayout crop)] ++
            harvestList now rest =
            ah ++ ((crop.config.name, offlinePayout crop) ::
              harvestList now rest)
          simp
        · show tc + offlinePayout crop + harvestTotal now rest =
            tc + (offlinePayout crop + harvestTotal now rest)
          ring
      · simp only [offlineLoop, if_neg hready]
        rw [harvestTotal_cons_not_ready now k crop rest hready,
          harvestCount_cons_not_ready now k crop rest hready,
          harvestList_cons_not_ready now k crop rest hready]
        exact ih farm player ah tc

theorem offlineLoop_farm (now : ℚ) (l : List ((ℤ × ℤ) × Option Crop)) :
    ∀ (pre : List ((ℤ × ℤ) × Option Crop)) (w h : ℤ) (player : Player)
      (ah : List (String × ℤ)) (tc : ℤ),
      (dictKeys l).Nodup →
      (∀ k2, k2 ∈ dictKeys l → k2 ∉ dictKeys pre) →
      (offlineLoop now l ⟨w, h, pre ++ l⟩ player ah tc).1 =
        ⟨w, h, pre ++ l.map (fun kv => (kv.1, offlineCell now kv.2))⟩ := by
  induction l with
  | nil =>
    intro pre w h player ah tc _ _
    simp [offlineLoop]
  | cons entry rest ih =>
    intro pre w h player ah tc hnodup hdisj
    obtain ⟨k, crop?⟩ := entry
    have hk_pre : k ∉ dictKeys pre := hdisj k (List.mem_cons_self _ _)
    have hpair := List.nodup_cons.mp hnodup
    have hkrest : k ∉ dictKeys rest := hpair.1
    have hnodup2 : (dictKeys rest).Nodup := hpair.2
    have hdisj2 : ∀ v : Option Crop, ∀ k2, k2 ∈ dictKeys rest →
        k2 ∉ dictKeys (pre ++ [(k, v)]) := by
      intro v k2 hk2 hmem
      rw [dictKeys, List.map_append] at hmem
      rcases List.mem_append.mp hmem with hmem2 | hmem2
      · exact hdisj k2 (List.mem_cons.mpr (Or.inr hk2)) hmem2
      · have hk2k : k2 = k := by simpa using hmem2
        subst hk2k
        exact hkrest hk2
    rcases crop? with _ | crop
    · simp only [offlineLoop]
      rw [show pre ++ (k, (none : Option Crop)) :: rest =
        (pre ++ [(k, (none : Option Crop))]) ++ rest by simp]
      refine (ih (pre ++ [(k, none)]) w h player ah tc hnodup2
        (hdisj2 none)).trans ?_
      simp [offlineCell]
    · by_cases hready :
        (crop.config.growth_time : ℚ) ≤ now - crop.planted_at
      · simp only [offlineLoop, if_pos hready]
        rw [show dictSet (pre ++ (k, some crop) :: rest) k none =
          pre ++ (k, (none : Option Crop)) :: rest from
          dictSet_append_head pre k (some crop) none rest hk_pre]
        rw [show pre ++ (k, (none : Option Crop)) :: rest =
          (pre ++ [(k, (none : Option Crop))]) ++ rest by simp]
        refine (ih (pre ++ [(k, none)]) w h _ _ _ hnodup2
          (hdisj2 none)).trans ?_
        simp [offlineCell, cropReadyNow, hready]
      · simp only [offlineLoop, if_neg hready]
        rw [show pre ++ (k, some crop) :: rest =
          (pre ++ [(k, some crop)]) ++ rest by simp]
        refine (ih (pre ++ [(k, some crop)]) w h player ah tc hnodup2
          (hdisj2 (some crop))).trans ?_
        simp [offlineCell, cropReadyNow, hready]

theorem CROPS_sell_price_nonneg {t : String} {cfg : CropConfig}
    (h : dictGet CROPS t = some cfg) : 0 ≤ cfg.sell_price := by
  have hmem := dictGet_mem h
  have hall : ∀ q ∈ CROPS, (0 : ℤ) ≤ q.2.sell_price := by decide
  exact hall _ hmem

theorem offlinePayout_eq_floor {c : Crop}
    (h : dictGet CROPS c.crop_type = some c.config) :
    offlinePayout c =
      ⌊(c.config.sell_price : ℚ) * OFFLINE_REWARD_MULTIPLIER⌋ := by
  have hnn : (0 : ℚ) ≤
      (c.config.sell_price : ℚ) * OFFLINE_REWARD_MULTIPLIER :=
    mul_nonneg (by exact_mod_cast CROPS_sell_price_nonneg h)
      (by norm_num [OFFLINE_REWARD_MULTIPLIER])
  unfold offlinePayout py_int
  rw [if_neg (not_lt.mpr hnn)]

/-- Claim C1: when the capped offline gap meets the processing
threshold, offline reconciliation auto-harvests exactly the occupied
cells whose absolute elapsed time `now - plantedAt` reaches the crop's
catalog growth time (regardless of when readiness was reached): the
summary lists `(cropName, floor(sellPrice * OFFLINE_REWARD_MULTIPLIER))`
for each such crop in grid scan order, its total equals the sum of the
per-crop payouts, the player is credited exactly that total with
`totalCropsHarvested` incremented once per harvested crop (all other
player fields unchanged), each harvested plot is cleared, and every
other cell is left unchanged. -/
theorem offline_reconciliation_spec (w h : ℤ)
    (contents : ℤ × ℤ → Option Crop) (player : Player) (last_save now : ℚ)
    (hgap : MIN_OFFLINE_TIME_TO_PROCESS ≤
      min (now - last_save) MAX_OFFLINE_TIME)
    (hcat : ∀ k cr, contents k = some cr →
      dictGet CROPS cr.crop_type = some cr.config) :
    (SaveSystem.process_offline_time (mkFarmOf w h contents) player
        last_save now).2.2.auto_harvested =
      (gridCoords w h).filterMap (fun k =>
        match contents k with
        | some cr =>
          if (cr.config.growth_time : ℚ) ≤ now - cr.planted_at then
            some (cr.config.name,
              ⌊(cr.config.sell_price : ℚ) * OFFLINE_REWARD_MULTIPLIER⌋)
          else none
        | none => none)
    ∧ (SaveSystem.process_offline_time (mkFarmOf w h contents) player
        last_save now).2.2.total_coins =
      (((SaveSystem.process_offline_time (mkFarmOf w h contents) player
        last_save now).2.2.auto_harvested).map Prod.snd).sum
    ∧ (SaveSystem.process_offline_time (mkFarmOf w h contents) player
        last_save now).2.2.offline_time =
      min (now - last_save) MAX_OFFLINE_TIME
    ∧ (SaveSystem.process_offline_time (mkFarmOf w h contents) player
        last_save now).2.1.coins =
      player.coins + (SaveSystem.process_offline_time
        (mkFarmOf w h contents) player last_save now).2.2.total_coins
    ∧ (SaveSystem.process_offline_time (mkFarmOf w h contents) player
        last_save now).2.1.total_crops_harvested =
      player.total_crops_harvested +
        (((SaveSystem.process_offline_time (mkFarmOf w h contents) player
          last_save now).2.2.auto_harvested).length : ℤ)
    ∧ (SaveSystem.process_offline_time (mkFarmOf w h contents) player
        last_save now).2.1.experience = player.experience
    ∧ (SaveSystem.process_offline_time (mkFarmOf w h contents) player
        last_save now).2.1.level = player.level
    ∧ (SaveSystem.process_offline_time (mkFarmOf w h contents) player
        last_save now).2.1.total_crops_planted = player.total_crops_planted
    ∧ (SaveSystem.process_offline_time (mkFarmOf w h contents) player
        last_save now).2.1.unlocked_crops = player.unlocked_crops
    ∧ (SaveSystem.process_offline_time (mkFarmOf w h contents) player
        last_save now).1.width = w
    ∧ (SaveSystem.process_offline_time (mkFarmOf w h contents) player
        last_save now).1.height = h
    ∧ ∀ k : ℤ × ℤ,
        dictGet (SaveSystem.process_offline_time (mkFarmOf w h contents)
          player last_save now).1.plots k =
          if 0 ≤ k.1 ∧ k.1 < w ∧ 0 ≤ k.2 ∧ k.2 < h then
            some (offlineCell now (contents k))
          else none := by
  have hnot : ¬ min (now - last_save) MAX_OFFLINE_TIME <
      MIN_OFFLINE_TIME_TO_PROCESS := not_lt.mpr hgap
  have hr : SaveSystem.process_offline_time (mkFarmOf w h contents) player
      last_save now =
      ((offlineLoop now (mkFarmOf w h contents).plots
          (mkFarmOf w h contents) player [] 0).1,
       (offlineLoop now (mkFarmOf w h contents).plots
          (mkFarmOf w h contents) player [] 0).2.1,
       ⟨min (now - last_save) MAX_OFFLINE_TIME,
        (offlineLoop now (mkFarmOf w h contents).plots
          (mkFarmOf w h contents) player [] 0).2.2.1,
        (offlineLoop now (mkFarmOf w h contents).plots
          (mkFarmOf w h contents) player [] 0).2.2.2⟩) := by
    simp only [SaveSystem.process_offline_time]
    rw [if_neg hnot]
  obtain ⟨hco, hex, hlv, htp, hth, hun, hah, htc⟩ :=
    offlineLoop_components now (mkFarmOf w h contents).plots
      (mkFarmOf w h contents) player [] 0
  have hkeys : dictKeys (mkFarmOf w h contents).plots = gridCoords w h :=
    dictKeys_map_fn _ _
  have hfarm0 := offlineLoop_farm now (mkFarmOf w h contents).plots [] w h
    player [] 0 (by rw [hkeys]; exact gridCoords_nodup w h)
    (by intro k2 _ hmem; simp [dictKeys] at hmem)
  simp only [List.nil_append] at hfarm0
  have hmaps : ((mkFarmOf w h contents).plots.map
      (fun kv => (kv.1, offlineCell now kv.2))) =
      (gridCoords w h).map (fun k => (k, offlineCell now (contents k))) := by
    show ((gridCoords w h).map (fun k => (k, contents k))).map _ = _
    rw [List.map_map]
    rfl
  have hfarm : (offlineLoop now (mkFarmOf w h contents).plots
      (mkFarmOf w h contents) player [] 0).1 =
      ⟨w, h, (gridCoords w h).map
        (fun k => (k, offlineCell now (contents k)))⟩ :=
    hfarm0.trans (congrArg (Farm.mk w h) hmaps)
  have hharv : harvestList now (mkFarmOf w h contents).plots =
      (gridCoords w h).filterMap (fun k =>
        match contents k with
        | some cr =>
          if (cr.config.growth_time : ℚ) ≤ now - cr.planted_at then
            some (cr.config.name,
              ⌊(cr.config.sell_price : ℚ) * OFFLINE_REWARD_MULTIPLIER⌋)
          else none
        | none => none) := by
    unfold harvestList
    show ((gridCoords w h).map (fun k => (k, contents k))).filterMap _ = _
    rw [List.filterMap_map]
    refine List.filterMap_congr ?_
    intro k _
    show (match contents k with
      | some c =>
        if cropReadyNow now c then some (c.config.name, offlinePayout c)
        else none
      | none => none) = _
    rcases hck : contents k with _ | cr
    · rfl
    · have hfloor := offlinePayout_eq_floor (hcat k cr hck)
      by_cases hready : (cr.config.growth_time : ℚ) ≤ now - cr.planted_at
      · simp [cropReadyNow, hready, hfloor]
      · simp [cropReadyNow, hready]
  refine ⟨?_, ?_, ?_, ?_, ?_, ?_, ?_, ?_, ?_, ?_, ?_, ?_⟩
  · rw [hr]
    show (offlineLoop now (mkFarmOf w h contents).plots
      (mkFarmOf w h contents) player [] 0).2.2.1 = _
    rw [hah, List.nil_append, hharv]
  · rw [hr]
    show (offlineLoop now (mkFarmOf w h contents).plots
        (mkFarmOf w h contents) player [] 0).2.2.2 =
      (((offlineLoop now (mkFarmOf w h contents).plots
        (mkFarmOf w h contents) player [] 0).2.2.1).map Prod.snd).sum
    rw [htc, hah, List.nil_append]
    simp [harvestTotal]
  · rw [hr]
  · rw [hr]
    show (offlineLoop now (mkFarmOf w h contents).plots
        (mkFarmOf w h contents) player [] 0).2.1.coins =
      player.coins + (offlineLoop now (mkFarmOf w h contents).plots
        (mkFarmOf w h contents) player [] 0).2.2.2
    rw [hco, htc]
    ring
  · rw [hr]
    show (offlineLoop now (mkFarmOf w h contents).plots
        (mkFarmOf w h contents) player [] 0).2.1.total_crops_harvested =
      player.total_crops_harvested +
        (((offlineLoop now (mkFarmOf w h contents).plots
          (mkFarmOf w h contents) player [] 0).2.2.1).length : ℤ)
    rw [hth, hah, List.nil_append]
    simp [harvestCount]
  · rw [hr]
    exact hex
  · rw [hr]
    exact hlv
  · rw [hr]
    exact htp
  · rw [hr]
    exact hun
  · rw [hr]
    show (offlineLoop now (mkFarmOf w h contents).plots
      (mkFarmOf w h contents) player [] 0).1.width = w
    rw [hfarm]
  · rw [hr]
    show (offlineLoop now (mkFarmOf w h contents).plots
      (mkFarmOf w h contents) player [] 0).1.height = h
    rw [hfarm]
  · intro k
    rw [hr]
    show dictGet (offlineLoop now (mkFarmOf w h contents).plots
      (mkFarmOf w h contents) player [] 0).1.plots k = _
    rw [hfarm]
    show dictGet ((gridCoords w h).map
      (fun a => (a, offlineCell now (contents a)))) k = _
    rw [dictGet_map_fn]
    by_cases hm : k ∈ gridCoords w h
    · rw [if_pos hm, if_pos (mem_gridCoords.mp hm)]
    · rw [if_neg hm, if_neg (fun hc => hm (mem_gridCoords.mpr hc))]

theorem offline_reconciliation_spec_witness :
    (SaveSystem.process_offline_time
        (mkFarmOf 1 1 (fun _ =>
          some ⟨"RADISH", ⟨"Radish", "🔴", 30, 10, 15, 1⟩, 0⟩))
        (Player.init 100 0 1 0 0 none) 80 100).2.2.auto_harvested =
      [("Radish", 10)] := by
  have hmain := (offline_reconciliation_spec 1 1
    (fun _ => some ⟨"RADISH", ⟨"Radish", "🔴", 30, 10, 15, 1⟩, 0⟩)
    (Player.init 100 0 1 0 0 none) 80 100
    (by norm_num [MIN_OFFLINE_TIME_TO_PROCESS, MAX_OFFLINE_TIME])
    (by rintro k cr hcr; cases hcr; rfl)).1
  rw [hmain]
  rw [show gridCoords 1 1 = [(0, 0)] from rfl]
  norm_num [List.filterMap, OFFLINE_REWARD_MULTIPLIER]
